import Mathlib

/-!
Verification development for `opendrift/models/radionuclides.py`
(class `RadionuclideDrift`): the radionuclide speciation transition engine.

Modelling conventions of the shallow embedding:
* numpy floating-point values are modelled as real numbers (`ℝ`);
* per-particle numpy arrays are modelled as functions from the particle
  index (`ℕ`) to the value type; the 2D array `transfer_rates` and the
  per-particle rate rows are functions `ℕ → ℕ → ℝ`;
* numpy boolean-mask assignments `a[mask] = v` become pointwise
  conditionals; sequences of masked assignments are translated in the
  source order (a later assignment reads the array produced by the
  earlier one);
* `self.transfer_rates[self.elements.specie, :]` uses numpy advanced
  (integer-array) indexing, which returns a copy, so the per-particle
  rate rows are a fresh value derived from the matrix;
* random draws (`np.random.random`, `np.random.normal`) are passed in as
  explicit per-particle functions;
* Python code that can raise (`list.index` on a missing name) is
  modelled with `Option`.
-/

noncomputable section

/-! ## Stochastic speciation engine (`update_speciation`, lines 419-462)

Per-particle core of `update_speciation`.  For one particle with
effective rate row `row` and timestep `dt`, the code computes
`p = 1 - np.exp(-transfer_rates1D * deltat)` entrywise (line 430),
`psum = np.sum(p, axis=1)` (line 431), transforms iff `ran1 < psum`
(line 436), and picks the destination specie with
`np.searchsorted(np.cumsum(p/psum), ran4)` (line 448). -/

/-- numpy `np.cumsum` with an explicit accumulator. -/
def cumsumFrom (acc : ℝ) : List ℝ → List ℝ
  | [] => []
  | x :: xs => (acc + x) :: cumsumFrom (acc + x) xs

/-- numpy `np.cumsum` of a 1D array. -/
def cumsum (l : List ℝ) : List ℝ := cumsumFrom 0 l

/-- numpy `np.searchsorted(a, v)` with the default side `left`, on a sorted
array `a`: the first index `i` with `v ≤ a[i]`, or `a.length` when every
element of `a` is smaller than `v`. -/
def searchsorted : List ℝ → ℝ → ℕ
  | [], _ => 0
  | x :: xs, v => if v ≤ x then 0 else searchsorted xs v + 1

/-- Line 430: the per-entry transformation probabilities
`p = 1. - np.exp(-transfer_rates1D * deltat)` for one particle. -/
def probRow (row : List ℝ) (dt : ℝ) : List ℝ :=
  row.map (fun r => 1 - Real.exp (-r * dt))

/-- Line 431: `psum = np.sum(p, axis=1)` for one particle: the total
transformation probability the engine compares the uniform draw against. -/
def psum (row : List ℝ) (dt : ℝ) : ℝ := (probRow row dt).sum

/-- Line 448: destination specie of a transforming particle,
`np.searchsorted(np.cumsum(p[ii]/psum[ii]), ran4[ii])`. -/
def selectDest (row : List ℝ) (dt v : ℝ) : ℕ :=
  searchsorted (cumsum ((probRow row dt).map (fun p => p / psum row dt))) v

/-- Lines 430-449 for a single particle: the specie after the stochastic
speciation step, where `u` is the particle's `ran1` draw and `v` its `ran4`
draw.  The particle transforms iff `u < psum` (line 436); a transforming
particle gets the specie selected at line 448, any other particle keeps
its current specie. -/
def newSpecie (row : List ℝ) (dt u v : ℝ) (cur : ℕ) : ℕ :=
  if u < psum row dt then selectDest row dt v else cur

/-- Spec-side variant of `searchsorted`: the first index `i` with `v < a[i]`
("the first index whose cumulative value exceeds `v`"). -/
def searchsortedStrict : List ℝ → ℝ → ℕ
  | [], _ => 0
  | x :: xs, v => if v < x then 0 else searchsortedStrict xs v + 1

/-- Modelled from the spec (§4.4), for comparison with `selectDest`:
"normalize `effective_rate_row` to probabilities proportional to each entry
divided by the row sum, form the cumulative distribution over compartments
in index order, and take the first index whose cumulative value exceeds
`v`". -/
def selectDest_spec (row : List ℝ) (v : ℝ) : ℕ :=
  searchsortedStrict (cumsum (row.map (fun r => r / row.sum))) v

/-! ## Configuration and the transfer-rate matrix builder
(`prepare_run` lines 200-234, `init_transfer_rates` lines 239-309) -/

/-- The configuration values read by the speciation core
(`configspec_radionuclidedrift`, lines 138-168). -/
structure RadConfig where
  transfer_setup : String
  Kd : ℝ
  Dc : ℝ
  slow_coeff : ℝ
  sedmixdepth : ℝ
  sediment_density : ℝ
  effective_fraction : ℝ
  corr_factor : ℝ
  porosity : ℝ
  layer_thick : ℝ
  species_LMM : Bool
  species_Colloid : Bool
  species_Particle_reversible : Bool
  species_Particle_slowly_reversible : Bool
  species_Particle_irreversible : Bool
  species_Sediment_reversible : Bool
  species_Sediment_slowly_reversible : Bool
  species_Sediment_irreversible : Bool
  slowly_fraction : Bool
  irreversible_fraction : Bool

/-- `prepare_run`, lines 202-218: the ordered list of active species names,
built by appending each enabled species in the fixed enumeration order. -/
def name_species (c : RadConfig) : List String :=
  (if c.species_LMM then ["LMM"] else []) ++
  (if c.species_Colloid then ["Colloid"] else []) ++
  (if c.species_Particle_reversible then ["Particle reversible"] else []) ++
  (if c.species_Particle_slowly_reversible then ["Particle slowly reversible"] else []) ++
  (if c.species_Particle_irreversible then ["Particle irreversible"] else []) ++
  (if c.species_Sediment_reversible then ["Sediment reversible"] else []) ++
  (if c.species_Sediment_slowly_reversible then ["Sediment slowly reversible"] else []) ++
  (if c.species_Sediment_irreversible then ["Sediment irreversible"] else [])

/-- `specie_name2num` (line 176): `self.name_species.index(name)`.
Python `list.index` raises `ValueError` when the name is absent; that
failure is modelled as `none`. -/
def specie_name2num (l : List String) (s : String) : Option ℕ :=
  l.findIdx? (fun t => t == s)

/-- The Python exceptions that `init_transfer_rates` can raise.
`typeError` models the `else` branch of line 303: `logging.ERROR` is the
integer constant 40, so `logging.ERROR('No transfer setup available')`
raises `TypeError: 'int' object is not callable`.  `valueError` models
`list.index` on a name that is not in `name_species`. -/
inductive PyError : Type
  | typeError
  | valueError
deriving DecidableEq

/-- `self.specie_name2num(name)` as used inside `init_transfer_rates`:
the index of `name`, or the `ValueError` that `list.index` raises when the
species is not active. -/
def indexOrValueError (l : List String) (s : String) : Except PyError ℕ :=
  match specie_name2num l s with
  | some n => Except.ok n
  | none => Except.error PyError.valueError

/-- A single numpy element assignment `M[a, b] = v` on a 2D array. -/
def upd (M : ℕ → ℕ → ℝ) (a b : ℕ) (v : ℝ) : ℕ → ℕ → ℝ :=
  fun i j => if i = a ∧ j = b then v else M i j

/-- Line 307: `np.fill_diagonal(self.transfer_rates, 0.)`. -/
def fillDiag (M : ℕ → ℕ → ℝ) : ℕ → ℕ → ℝ :=
  fun i j => if i = j then 0 else M i j

/-- `init_transfer_rates`, lines 239-309.  Starts from
`np.zeros([nspecies, nspecies])`, fills the preset's entries, and forces
the diagonal to `0` (line 307).  Species-index lookups that would raise
`ValueError` in Python yield `Except.error PyError.valueError`.  For an
unrecognized `transfer_setup` the `else` branch of line 303 executes
`logging.ERROR('No transfer setup available')`; `logging.ERROR` is the
integer constant 40, so this call raises
`TypeError: 'int' object is not callable`, aborting the build before the
diagonal fill — modelled as `Except.error PyError.typeError`. -/
def init_transfer_rates (c : RadConfig) : Except PyError (ℕ → ℕ → ℝ) :=
  let ns := name_species c
  let M0 : ℕ → ℕ → ℝ := fun _ _ => 0
  if c.transfer_setup = "Bokna_137Cs" then
    (indexOrValueError ns "LMM").bind fun num_lmm =>
    (indexOrValueError ns "Particle reversible").bind fun num_prev =>
    (indexOrValueError ns "Sediment reversible").bind fun num_srev =>
    (indexOrValueError ns "Particle slowly reversible").bind fun num_psrev =>
    (indexOrValueError ns "Sediment slowly reversible").bind fun num_ssrev =>
    let susp_mat : ℝ := 1e-3
    let M1 := upd M0 num_lmm num_prev (c.Dc * c.Kd * susp_mat)
    let M2 := upd M1 num_prev num_lmm c.Dc
    let M3 := upd M2 num_lmm num_srev
      (c.Dc * c.Kd * c.sedmixdepth * c.sediment_density * (1 - c.porosity) *
        c.effective_fraction * c.corr_factor / c.layer_thick)
    let M4 := upd M3 num_srev num_lmm (c.Dc * c.corr_factor)
    let M5 := upd M4 num_srev num_ssrev c.slow_coeff
    let M6 := upd M5 num_prev num_psrev c.slow_coeff
    let M7 := upd M6 num_ssrev num_srev (c.slow_coeff * 0.1)
    let M8 := upd M7 num_psrev num_prev (c.slow_coeff * 0.1)
    Except.ok (fillDiag M8)
  else if c.transfer_setup = "dummy" then
    (indexOrValueError ns "LMM").bind fun num_lmm =>
    -- line 285-286: `self.num_col` is bound when the Colloid species is
    -- enabled; the index is not used by the dummy matrix entries.
    ((if c.species_Colloid then indexOrValueError ns "Colloid"
      else Except.ok 0).bind fun _ =>
    (indexOrValueError ns "Particle reversible").bind fun num_prev =>
    (indexOrValueError ns "Sediment reversible").bind fun num_srev =>
    let M1 := upd M0 num_lmm num_prev 1e-5
    let M2 := upd M1 num_srev num_lmm 5e-6
    if c.slowly_fraction then
      (indexOrValueError ns "Particle slowly reversible").bind fun num_psrev =>
      (indexOrValueError ns "Sediment slowly reversible").bind fun num_ssrev =>
      let M3 := upd M2 num_prev num_psrev 2e-6
      let M4 := upd M3 num_srev num_ssrev 2e-6
      let M5 := upd M4 num_psrev num_prev 2e-7
      let M6 := upd M5 num_ssrev num_srev 2e-7
      Except.ok (fillDiag M6)
    else
      Except.ok (fillDiag M2))
  else
    -- line 303: `logging.ERROR('No transfer setup available')` raises
    -- TypeError (the int constant 40 is not callable); the function
    -- aborts here, before the diagonal fill of line 307.
    Except.error PyError.typeError

/-! ## Particle ensemble state and per-step operations -/

/-- The per-particle attribute arrays of the ensemble that the speciation
core reads and writes (`Radionuclide` elements plus the ambient
`lon`/`lat`/`z` of `LagrangianArray`).  `terminal_velocity` is not
modelled: `update_terminal_velocity` writes only that attribute and no
claim mentions it. -/
structure Elements where
  specie : ℕ → ℕ
  z : ℕ → ℝ
  lon : ℕ → ℝ
  lat : ℕ → ℝ
  diameter : ℕ → ℝ
  transfer_rates1D : ℕ → ℕ → ℝ

/-- The particle-aligned environment arrays used by the core. -/
structure Env where
  sea_floor_depth_below_sea_level : ℕ → ℝ
  conc3 : ℕ → ℝ

/-- The instance attributes of `RadionuclideDrift` consumed by the per-step
operations: the resolved species indices (`self.num_*`), the species count,
the configuration flags and numeric parameters read inside the step. -/
structure Params where
  nspecies : ℕ
  num_lmm : ℕ
  num_prev : ℕ
  num_srev : ℕ
  num_psrev : ℕ
  num_ssrev : ℕ
  num_pirrev : ℕ
  num_sirrev : ℕ
  num_col : ℕ
  slowly_fraction : Bool
  irreversible_fraction : Bool
  species_Colloid : Bool
  verticaladvection : Bool
  layer_thick : ℝ
  desorption_depth : ℝ
  desorption_depth_uncert : ℝ
  particle_diameter : ℝ
  dissolved_diameter : ℝ
  particle_diameter_uncertainty : ℝ
  dt : ℝ

/-- The random draws consumed in one step, as per-particle functions:
`ran1` (line 433), `ran4` (line 442), and the `np.random.normal` noise
vectors of the diameter and desorption handlers. -/
structure Draws where
  ran1 : ℕ → ℝ
  ran4 : ℕ → ℝ
  noiseP : ℕ → ℝ
  noisePs : ℕ → ℝ
  noisePi : ℕ → ℝ
  noiseD : ℕ → ℝ

/-- `update_transfer_rates`, lines 393-414.  Row selection
`self.transfer_rates[self.elements.specie, :]` (a copy, by numpy advanced
indexing), then the seabed-interaction gating (lines 402-406, with
`Zmin = -1 * sea_floor_depth` and `dist_to_seabed = z - Zmin`), then the
local-concentration scaling of the `LMM → Particle reversible` entry
(lines 411-414). -/
def update_transfer_rates (R : ℕ → ℕ → ℝ) (P : Params) (env : Env)
    (el : Elements) : Elements :=
  let row0 : ℕ → ℕ → ℝ := fun k j => R (el.specie k) j
  let row1 : ℕ → ℕ → ℝ := fun k j =>
    if el.specie k = P.num_lmm ∧
        el.z k - -env.sea_floor_depth_below_sea_level k > P.layer_thick ∧
        j = P.num_srev
    then 0 else row0 k j
  let row2 : ℕ → ℕ → ℝ := fun k j =>
    if el.specie k = P.num_lmm ∧ j = P.num_prev
    then row1 k j * env.conc3 k / 1e-3
    else row1 k j
  { el with transfer_rates1D := row2 }

/-- The effective rate row of particle `k` as a list of length `nspecies`,
for feeding `update_speciation`'s row-wise computations. -/
def rowList (el : Elements) (n k : ℕ) : List ℝ :=
  (List.range n).map (fun j => el.transfer_rates1D k j)

/-- `update_radionuclide_diameter`, lines 493-530: sequential masked
assignments of the configured particulate/dissolved diameters, each
particulate branch optionally followed by Gaussian noise when the
configured uncertainty is positive. -/
def update_radionuclide_diameter (P : Params) (r : Draws)
    (sp_in sp_out : ℕ → ℕ) (el : Elements) : Elements :=
  let dia_part := P.particle_diameter
  let dia_diss := P.dissolved_diameter
  let std := P.particle_diameter_uncertainty
  let d1 : ℕ → ℝ := fun k =>
    if sp_out k = P.num_prev ∧ sp_in k ≠ P.num_prev then dia_part else el.diameter k
  let d2 : ℕ → ℝ :=
    if 0 < std then
      fun k => if sp_out k = P.num_prev ∧ sp_in k ≠ P.num_prev then d1 k + r.noiseP k else d1 k
    else d1
  let d3 : ℕ → ℝ :=
    if P.slowly_fraction then
      fun k => if sp_out k = P.num_psrev ∧ sp_in k ≠ P.num_psrev then dia_part else d2 k
    else d2
  let d4 : ℕ → ℝ :=
    if P.slowly_fraction ∧ 0 < std then
      fun k => if sp_out k = P.num_psrev ∧ sp_in k ≠ P.num_psrev then d3 k + r.noisePs k else d3 k
    else d3
  let d5 : ℕ → ℝ :=
    if P.irreversible_fraction then
      fun k => if sp_out k = P.num_pirrev ∧ sp_in k ≠ P.num_pirrev then dia_part else d4 k
    else d4
  let d6 : ℕ → ℝ :=
    if P.irreversible_fraction ∧ 0 < std then
      fun k => if sp_out k = P.num_pirrev ∧ sp_in k ≠ P.num_pirrev then d5 k + r.noisePi k else d5 k
    else d5
  let d7 : ℕ → ℝ := fun k =>
    if sp_out k = P.num_lmm ∧ sp_in k ≠ P.num_lmm then dia_diss else d6 k
  let d8 : ℕ → ℝ :=
    if P.species_Colloid then
      fun k => if sp_out k = P.num_col ∧ sp_in k ≠ P.num_col then dia_diss else d7 k
    else d7
  { el with diameter := d8 }

/-- `sorption_to_sediments`, lines 465-471: particles transforming
`LMM → Sediment reversible` get `z = -1 * sea_floor_depth`. -/
def sorption_to_sediments (P : Params) (env : Env)
    (sp_in sp_out : ℕ → ℕ) (el : Elements) : Elements :=
  { el with z := fun k =>
      if sp_out k = P.num_srev ∧ sp_in k = P.num_lmm
      then -env.sea_floor_depth_below_sea_level k
      else el.z k }

/-- `desorption_from_sediments`, lines 475-487: particles transforming
`Sediment reversible → LMM` get
`z = sea_floor_depth_below_sea_level + desorption_depth` (note: the
positive depth magnitude, with no sign flip), plus Gaussian noise when the
configured uncertainty is positive. -/
def desorption_from_sediments (P : Params) (env : Env) (noiseD : ℕ → ℝ)
    (sp_in sp_out : ℕ → ℕ) (el : Elements) : Elements :=
  let z1 : ℕ → ℝ := fun k =>
    if sp_out k = P.num_lmm ∧ sp_in k = P.num_srev
    then env.sea_floor_depth_below_sea_level k + P.desorption_depth
    else el.z k
  let z2 : ℕ → ℝ :=
    if 0 < P.desorption_depth_uncert then
      fun k => if sp_out k = P.num_lmm ∧ sp_in k = P.num_srev then z1 k + noiseD k else z1 k
    else z1
  { el with z := z2 }

/-- `update_speciation`, lines 419-462, over the whole ensemble: compute the
new specie of every particle, store it, then run the three transition
effect handlers on the (old specie, new specie) pair. -/
def update_speciation (P : Params) (env : Env) (r : Draws)
    (el : Elements) : Elements :=
  let sp_in := el.specie
  let sp_out : ℕ → ℕ := fun k =>
    newSpecie (rowList el P.nspecies k) P.dt (r.ran1 k) (r.ran4 k) (el.specie k)
  let el1 := { el with specie := sp_out }
  let el2 := update_radionuclide_diameter P r sp_in sp_out el1
  let el3 := sorption_to_sediments P env sp_in sp_out el2
  desorption_from_sediments P env r.noiseD sp_in sp_out el3

/-- `bottom_interaction`, lines 535-546: particles with `z ≤ Zmin` and a
particulate specie are moved to the corresponding sediment specie; the
slowly/irreversible mappings run only under their configuration flags.
The masks are translated pointwise: `bottom` depends only on `z`, which
the function never writes, and each masked assignment reads the specie
array left by the previous one. -/
def bottom_interaction (P : Params) (Zmin : ℝ) (el : Elements) : Elements :=
  let sp1 : ℕ → ℕ := fun k =>
    if el.z k ≤ Zmin ∧ el.specie k = P.num_prev then P.num_srev else el.specie k
  let sp2 : ℕ → ℕ :=
    if P.slowly_fraction then
      fun k => if el.z k ≤ Zmin ∧ sp1 k = P.num_psrev then P.num_ssrev else sp1 k
    else sp1
  let sp3 : ℕ → ℕ :=
    if P.irreversible_fraction then
      fun k => if el.z k ≤ Zmin ∧ sp2 k = P.num_pirrev then P.num_sirrev else sp2 k
    else sp2
  { el with specie := sp3 }

/-- The sediment species whose positions `update` pins in place: `num_srev`
always, `num_ssrev`/`num_sirrev` under their configuration flags
(lines 574-581 and 588-592). -/
def sedimentB (P : Params) (s : ℕ) : Bool :=
  s == P.num_srev || (P.slowly_fraction && s == P.num_ssrev) ||
    (P.irreversible_fraction && s == P.num_sirrev)

/-- The speciation phase of `update` (lines 559-560):
`update_transfer_rates` followed by `update_speciation`. -/
def afterSpeciation (R : ℕ → ℕ → ℝ) (P : Params) (env : Env) (r : Draws)
    (el : Elements) : Elements :=
  update_speciation P env r (update_transfer_rates R P env el)

/-- The transport-and-reset part of `update` (lines 565-592), acting on the
post-speciation elements `el2`.  The external collaborators (the trajectory
integrator of the parent class) are passed in as functions restricted to
the attributes they write: vertical turbulent mixing produces new `z`
values and may change species (it is the caller of `bottom_interaction`),
horizontal advection produces new `lon`/`lat`, vertical advection produces
new `z`.  After each transport phase the positions of sedimented particles
are reset: `lon`/`lat` to their pre-advection values (lines 573-581) and
`z` to `z_before`, the value saved right after speciation (lines 565 and
587-592); the three per-species reset assignments are translated as one
pointwise conditional on `sedimentB`, which is equivalent because the
masks read the specie array (never written by the resets) and all write
the same saved value. -/
def updateFrom (P : Params)
    (mixZ : Elements → ℕ → ℝ) (mixSp : Elements → ℕ → ℕ)
    (advLon advLat : Elements → ℕ → ℝ)
    (vadvZ : Elements → ℕ → ℝ)
    (el2 : Elements) : Elements :=
  let z_before := el2.z
  -- update_terminal_velocity (line 566) writes only terminal_velocity
  let el4 := { el2 with z := mixZ el2, specie := mixSp el2 }
  let lon0 := el4.lon
  let lat0 := el4.lat
  let el5 := { el4 with lon := advLon el4, lat := advLat el4 }
  let el6 := { el5 with
    lon := fun k => if sedimentB P (el5.specie k) then lon0 k else el5.lon k,
    lat := fun k => if sedimentB P (el5.specie k) then lat0 k else el5.lat k }
  let el7 := if P.verticaladvection then { el6 with z := vadvZ el6 } else el6
  { el7 with z := fun k =>
      if sedimentB P (el7.specie k) then z_before k else el7.z k }

/-- `update`, lines 554-592: the speciation phase followed by the
transport-and-reset phase. -/
def update (R : ℕ → ℕ → ℝ) (P : Params) (env : Env) (r : Draws)
    (mixZ : Elements → ℕ → ℝ) (mixSp : Elements → ℕ → ℕ)
    (advLon advLat : Elements → ℕ → ℝ)
    (vadvZ : Elements → ℕ → ℝ)
    (el : Elements) : Elements :=
  updateFrom P mixZ mixSp advLon advLat vadvZ (afterSpeciation R P env r el)

/-- The simulation state visible to one step: the shared transfer-rate
matrix built at initialization, and the particle ensemble. -/
structure ModelState where
  transfer_rates : ℕ → ℕ → ℝ
  elements : Elements

/-- One full `update` step at the state level.  Every write of the step
targets the per-particle attribute arrays; the matrix `transfer_rates` is
only read (the row extraction at line 398 copies). -/
def stepState (P : Params) (env : Env) (r : Draws)
    (mixZ : Elements → ℕ → ℝ) (mixSp : Elements → ℕ → ℕ)
    (advLon advLat : Elements → ℕ → ℝ)
    (vadvZ : Elements → ℕ → ℝ)
    (s : ModelState) : ModelState :=
  { transfer_rates := s.transfer_rates,
    elements := update s.transfer_rates P env r mixZ mixSp advLon advLat vadvZ s.elements }

/-! ## Concrete fixtures used by the witness theorems -/

/-- A `dummy`-setup configuration with the three basic species enabled and
all numeric parameters at the low end of their configured ranges. -/
def cfgDummy : RadConfig :=
  { transfer_setup := "dummy"
    Kd := 0, Dc := 0, slow_coeff := 0, sedmixdepth := 0, sediment_density := 0
    effective_fraction := 0, corr_factor := 0, porosity := 0, layer_thick := 0
    species_LMM := true, species_Colloid := false
    species_Particle_reversible := true
    species_Particle_slowly_reversible := false
    species_Particle_irreversible := false
    species_Sediment_reversible := true
    species_Sediment_slowly_reversible := false
    species_Sediment_irreversible := false
    slowly_fraction := false, irreversible_fraction := false }

/-- `cfgDummy` with an unrecognized preset identifier. -/
def cfgUnknown : RadConfig := { cfgDummy with transfer_setup := "Bokna_90Sr" }

/-- Another unrecognized preset identifier. -/
def cfgUnknown2 : RadConfig := { cfgDummy with transfer_setup := "foo" }

/-- The matrix `init_transfer_rates` builds for `cfgDummy`:
`name_species cfgDummy = ["LMM", "Particle reversible", "Sediment reversible"]`,
so `num_lmm = 0`, `num_prev = 1`, `num_srev = 2`. -/
def Mdummy : ℕ → ℕ → ℝ :=
  fillDiag (upd (upd (fun _ _ => 0) 0 1 1e-5) 2 0 5e-6)

/-- Run parameters with species indices `num_lmm = 0`, `num_prev = 1`,
`num_srev = 2` and the slow/irreversible fractions disabled. -/
def P6 : Params :=
  { nspecies := 3, num_lmm := 0, num_prev := 1, num_srev := 2
    num_psrev := 0, num_ssrev := 0, num_pirrev := 0, num_sirrev := 0, num_col := 0
    slowly_fraction := false, irreversible_fraction := false
    species_Colloid := false, verticaladvection := false
    layer_thick := 1, desorption_depth := 10, desorption_depth_uncert := 0
    particle_diameter := 0, dissolved_diameter := 0
    particle_diameter_uncertainty := 0, dt := 1 }

/-- An all-fives rate matrix. -/
def R6 : ℕ → ℕ → ℝ := fun _ _ => 5

/-- An environment with a 10 m deep seafloor and a doubled suspended
concentration. -/
def env6 : Env :=
  { sea_floor_depth_below_sea_level := fun _ => 10, conc3 := fun _ => 2e-3 }

/-- A two-particle ensemble: particle 0 dissolved (LMM) at `z = -3`,
particle 1 sediment-reversible. -/
def el6 : Elements :=
  { specie := fun k => if k = 0 then 0 else 2
    z := fun _ => -3, lon := fun _ => 0, lat := fun _ => 0
    diameter := fun _ => 0, transfer_rates1D := fun _ _ => 0 }

/-- An environment with a 100 m deep seafloor. -/
def env7 : Env :=
  { sea_floor_depth_below_sea_level := fun _ => 100, conc3 := fun _ => 1e-3 }

/-- A particle resting on a 100 m deep seafloor. -/
def el7 : Elements :=
  { specie := fun _ => 2, z := fun _ => -100, lon := fun _ => 0, lat := fun _ => 0
    diameter := fun _ => 0, transfer_rates1D := fun _ _ => 0 }

/-- A two-particle ensemble straddling `Zmin = -5`: particle 0 is
particle-reversible at `z = -10`, particle 1 is LMM at `z = -1`. -/
def el8 : Elements :=
  { specie := fun k => if k = 0 then 1 else 0
    z := fun k => if k = 0 then -10 else -1
    lon := fun _ => 0, lat := fun _ => 0
    diameter := fun _ => 0, transfer_rates1D := fun _ _ => 0 }

/-- A sediment-reversible particle ensemble with distinctive positions. -/
def elw : Elements :=
  { specie := fun _ => 2, z := fun _ => -50, lon := fun _ => 3, lat := fun _ => 4
    diameter := fun _ => 6, transfer_rates1D := fun _ _ => 0 }

/-- An all-zero rate matrix. -/
def Rw : ℕ → ℕ → ℝ := fun _ _ => 0

/-- Fixed random draws for one step. -/
def drawsW : Draws :=
  { ran1 := fun _ => 1/2, ran4 := fun _ => 1/2
    noiseP := fun _ => 0, noisePs := fun _ => 0, noisePi := fun _ => 0
    noiseD := fun _ => 0 }

/-- Mixing that moves every particle to `z = -999`. -/
def mixZw : Elements → ℕ → ℝ := fun _ _ => -999

/-- Mixing that changes no specie. -/
def mixSpw : Elements → ℕ → ℕ := fun e k => e.specie k

/-- Horizontal advection moving every particle to `lon = 77`. -/
def advLonw : Elements → ℕ → ℝ := fun _ _ => 77

/-- Horizontal advection moving every particle to `lat = 88`. -/
def advLatw : Elements → ℕ → ℝ := fun _ _ => 88

/-- Vertical advection moving every particle to `z = -111`. -/
def vadvZw : Elements → ℕ → ℝ := fun _ _ => -111

/-! ## Helper lemmas -/

theorem list_map_div_sum (l : List ℝ) (c : ℝ) :
    (l.map (fun x => x / c)).sum = l.sum / c := by
  induction l with
  | nil => simp
  | cons x xs ih => simp [ih, add_div]

theorem map_sum_eq_range (f : ℝ → ℝ) (l : List ℝ) :
    (l.map f).sum = ∑ j in Finset.range l.length, f (l.getD j 0) := by
  induction l with
  | nil => simp
  | cons x xs ih =>
    rw [List.map_cons, List.sum_cons, List.length_cons, Finset.sum_range_succ']
    simp only [List.getD_cons_succ, List.getD_cons_zero]
    rw [ih]; ring

theorem list_sum_le_length (l : List ℝ) (h : ∀ x ∈ l, x ≤ 1) :
    l.sum ≤ (l.length : ℝ) := by
  induction l with
  | nil => simp
  | cons x xs ih =>
    have h1 := h x (by simp)
    have h2 := ih (fun y hy => h y (by simp [hy]))
    simp only [List.sum_cons, List.length_cons]
    push_cast
    linarith

theorem list_sum_lt_length (l : List ℝ) (h : ∀ x ∈ l, x < 1) (hne : l ≠ []) :
    l.sum < (l.length : ℝ) := by
  induction l with
  | nil => cases hne rfl
  | cons x xs ih =>
    rcases eq_or_ne xs [] with rfl | hxs
    · simpa using h x (by simp)
    · have h1 := h x (by simp)
      have h2 := ih (fun y hy => h y (by simp [hy])) hxs
      simp only [List.sum_cons, List.length_cons]
      push_cast
      linarith

theorem psum_nonneg (row : List ℝ) (dt : ℝ)
    (hrow : ∀ r ∈ row, 0 ≤ r) (hdt : 0 ≤ dt) : 0 ≤ psum row dt := by
  apply List.sum_nonneg
  intro x hx
  simp only [probRow, List.mem_map] at hx
  obtain ⟨r, hr, rfl⟩ := hx
  have hr0 : -r * dt ≤ 0 := by
    have := mul_nonneg (hrow r hr) hdt
    nlinarith
  have := Real.exp_le_one_iff.mpr hr0
  linarith

theorem psum_le_length (row : List ℝ) (dt : ℝ) :
    psum row dt ≤ (row.length : ℝ) := by
  have h := list_sum_le_length (probRow row dt) ?_
  · rw [probRow, List.length_map] at h
    exact h
  · intro x hx
    simp only [probRow, List.mem_map] at hx
    obtain ⟨r, hr, rfl⟩ := hx
    have := Real.exp_pos (-r * dt)
    linarith

theorem psum_lt_length (row : List ℝ) (dt : ℝ) (hne : row ≠ []) :
    psum row dt < (row.length : ℝ) := by
  have h := list_sum_lt_length (probRow row dt) ?_ ?_
  · rw [probRow, List.length_map] at h
    exact h
  · intro x hx
    simp only [probRow, List.mem_map] at hx
    obtain ⟨r, hr, rfl⟩ := hx
    have := Real.exp_pos (-r * dt)
    linarith
  · simpa [probRow] using hne

theorem psum_zero (row : List ℝ) (dt : ℝ) (h : ∀ r ∈ row, r = 0) :
    psum row dt = 0 := by
  apply List.sum_eq_zero
  intro x hx
  simp only [probRow, List.mem_map] at hx
  obtain ⟨r, hr, rfl⟩ := hx
  rw [h r hr]
  simp

theorem exp_neg_one_lt_half : Real.exp (-1) < 1 / 2 := by
  have he : (2 : ℝ) < Real.exp 1 := lt_trans (by norm_num) Real.exp_one_gt_d9
  rw [Real.exp_neg]
  rw [show (1 / 2 : ℝ) = 2⁻¹ by norm_num]
  exact inv_strictAnti₀ (by norm_num) he

theorem exp_neg_one_gt : (0.36 : ℝ) < Real.exp (-1) := by
  have he : Real.exp 1 < 2.7182818286 := Real.exp_one_lt_d9
  rw [Real.exp_neg]
  have h1 : (2.7182818286 : ℝ)⁻¹ < (Real.exp 1)⁻¹ :=
    inv_strictAnti₀ (Real.exp_pos 1) he
  have h2 : (0.36 : ℝ) < (2.7182818286 : ℝ)⁻¹ := by norm_num
  linarith

theorem psum_one_one : psum [(1 : ℝ), 1] 1 = 2 - 2 * Real.exp (-1) := by
  simp only [psum, probRow, List.map_cons, List.map_nil, List.sum_cons,
    List.sum_nil, neg_mul, one_mul]
  ring

theorem exp_neg_two_eq : Real.exp (-2 : ℝ) = Real.exp (-1) * Real.exp (-1) := by
  rw [show (-2 : ℝ) = -1 + -1 by norm_num, Real.exp_add]

theorem searchsorted_cons_le (x v : ℝ) (xs : List ℝ) (h : v ≤ x) :
    searchsorted (x :: xs) v = 0 := by
  rw [searchsorted, if_pos h]

theorem searchsorted_cons_gt (x v : ℝ) (xs : List ℝ) (h : x < v) :
    searchsorted (x :: xs) v = searchsorted xs v + 1 := by
  rw [searchsorted, if_neg (not_le.mpr h)]

theorem sstrict_cons_lt (x v : ℝ) (xs : List ℝ) (h : v < x) :
    searchsortedStrict (x :: xs) v = 0 := by
  rw [searchsortedStrict, if_pos h]

theorem sstrict_cons_ge (x v : ℝ) (xs : List ℝ) (h : x ≤ v) :
    searchsortedStrict (x :: xs) v = searchsortedStrict xs v + 1 := by
  rw [searchsortedStrict, if_neg (not_lt.mpr h)]

theorem getD_map_of_lt (f : ℝ → ℝ) (l : List ℝ) (j : ℕ) (h : j < l.length) :
    (l.map f).getD j 0 = f (l.getD j 0) := by
  rw [List.getD_eq_getElem _ _ (by simpa using h), List.getD_eq_getElem _ _ h,
    List.getElem_map]

theorem searchsorted_lt_length (q : List ℝ) : ∀ acc v : ℝ, q ≠ [] →
    v ≤ acc + q.sum → searchsorted (cumsumFrom acc q) v < q.length := by
  induction q with
  | nil => intro acc v hne _; cases hne rfl
  | cons x xs ih =>
    intro acc v _ hv
    rw [cumsumFrom]
    by_cases h : v ≤ acc + x
    · rw [searchsorted_cons_le _ _ _ h]
      simp
    · rcases eq_or_ne xs [] with rfl | hxs
      · exact absurd (by simpa using hv) h
      · rw [searchsorted_cons_gt _ _ _ (not_le.mp h)]
        have hsum : v ≤ (acc + x) + xs.sum := by
          rw [List.sum_cons] at hv; linarith
        have := ih (acc + x) v hxs hsum
        rw [List.length_cons]
        omega

theorem searchsorted_sel_nonzero (q : List ℝ) : ∀ acc v : ℝ,
    (∀ a ∈ q, 0 ≤ a) → acc < v →
    searchsorted (cumsumFrom acc q) v < q.length →
    q.getD (searchsorted (cumsumFrom acc q) v) 0 ≠ 0 := by
  induction q with
  | nil => intro acc v _ _ hlt; simp [cumsumFrom, searchsorted] at hlt
  | cons x xs ih =>
    intro acc v hq hacc hlt
    rw [cumsumFrom] at hlt ⊢
    by_cases h : v ≤ acc + x
    · rw [searchsorted_cons_le _ _ _ h]
      simp only [List.getD_cons_zero]
      intro hx0
      rw [hx0, add_zero] at h
      linarith
    · have h' := not_le.mp h
      rw [searchsorted_cons_gt _ _ _ h'] at hlt ⊢
      simp only [List.getD_cons_succ]
      rw [List.length_cons] at hlt
      exact ih (acc + x) v (fun a ha => hq a (by simp [ha])) h' (by omega)

/-! ## Claim C1 -/

/-- Claim C1, counterexample.  The claim states the total outgoing
transition probability is computed as `1 - exp(-(Σ_j rate_j) * Δt)` and
that the particle transitions iff `u < p_total`.  On the rate row
`[1, 1]` with `Δt = 1` the quantity the engine actually compares the draw
against, `psum`, differs from the claimed formula, and with the draw
`u = 9/10`, which is not below the claimed `p_total`, the particle
nevertheless transitions (its specie changes from 5 to a valid index). -/
theorem C1_counterexample :
    psum [(1 : ℝ), 1] 1 ≠ 1 - Real.exp (-((1 : ℝ) + 1) * 1) ∧
    ¬ ((9 / 10 : ℝ) < 1 - Real.exp (-((1 : ℝ) + 1) * 1)) ∧
    newSpecie [(1 : ℝ), 1] 1 (9 / 10) 0 5 ≠ 5 := by
  have hx1 : Real.exp (-1) < 1 := Real.exp_lt_one_iff.mpr (by norm_num)
  have hxhalf := exp_neg_one_lt_half
  have hxlow := exp_neg_one_gt
  have harg : (-((1 : ℝ) + 1) * 1) = (-2 : ℝ) := by norm_num
  refine ⟨?_, ?_, ?_⟩
  · rw [psum_one_one, harg, exp_neg_two_eq]
    intro h
    nlinarith [mul_pos (sub_pos.mpr hx1) (sub_pos.mpr hx1)]
  · rw [harg, exp_neg_two_eq]
    push_neg
    nlinarith
  · have hlt : (9 / 10 : ℝ) < psum [(1 : ℝ), 1] 1 := by
      rw [psum_one_one]; linarith
    rw [newSpecie, if_pos hlt]
    simp only [selectDest, probRow, List.map_cons, List.map_nil, cumsum,
      cumsumFrom, searchsorted]
    split_ifs <;> norm_num

/-- Claim C1 (amended): for every particle, the engine computes the total
outgoing probability as `p_total = Σ_j (1 - exp(-effective_rate_row[j]·Δt))`
(summing the per-entry probabilities, not exponentiating the summed rate),
and the particle transitions in the step iff the uniform draw satisfies
`u < p_total`. -/
theorem C1_amended (row : List ℝ) (dt u v : ℝ) (cur : ℕ) :
    psum row dt = ∑ j in Finset.range row.length,
      (1 - Real.exp (-(row.getD j 0) * dt)) ∧
    newSpecie row dt u v cur =
      (if u < psum row dt then selectDest row dt v else cur) := by
  constructor
  · exact map_sum_eq_range (fun r => 1 - Real.exp (-r * dt)) row
  · rfl

/-! ## Claim C2 -/

/-- Claim C2, counterexample.  The claim's bound `p_total < 1` fails: the
per-particle total the engine uses is a sum of per-entry probabilities and
exceeds 1 on the rate row `[1, 1]` with `Δt = 1`. -/
theorem C2_counterexample : ¬ (psum [(1 : ℝ), 1] 1 < 1) := by
  have hxhalf := exp_neg_one_lt_half
  push_neg
  rw [psum_one_one]
  linarith

/-- Claim C2 (amended): for non-negative rates and `Δt > 0`, the total
transition probability `p_total = psum` satisfies `0 ≤ p_total ≤ N` (`N`
the row length), with `p_total < N` for a non-empty row — but not
`p_total < 1` in general; and when every entry of the effective rate row
is zero, `p_total = 0` and the particle never transitions (for any draw
`u ≥ 0` its specie is unchanged by the step). -/
theorem C2_amended (row : List ℝ) (dt : ℝ)
    (hrow : ∀ r ∈ row, 0 ≤ r) (hdt : 0 < dt) :
    0 ≤ psum row dt ∧ psum row dt ≤ (row.length : ℝ) ∧
    (row ≠ [] → psum row dt < (row.length : ℝ)) ∧
    ((∀ r ∈ row, r = 0) → psum row dt = 0 ∧
      ∀ (u v : ℝ) (cur : ℕ), 0 ≤ u → newSpecie row dt u v cur = cur) := by
  refine ⟨psum_nonneg row dt hrow hdt.le, psum_le_length row dt,
    psum_lt_length row dt, fun hz => ?_⟩
  have h0 : psum row dt = 0 := psum_zero row dt hz
  refine ⟨h0, fun u v cur hu => ?_⟩
  rw [newSpecie, h0, if_neg (by linarith)]

/-- Witness for C2 at the all-zero rate row `[0, 0]` with `Δt = 1`. -/
theorem C2_witness :
    0 ≤ psum [(0 : ℝ), 0] 1 ∧
    psum [(0 : ℝ), 0] 1 < ([(0 : ℝ), 0].length : ℝ) ∧
    psum [(0 : ℝ), 0] 1 = 0 ∧
    newSpecie [(0 : ℝ), 0] 1 (1 / 2) (1 / 3) 7 = 7 := by
  obtain ⟨h1, h2, h3, h4⟩ :=
    C2_amended [(0 : ℝ), 0] 1 (by intro r hr; simp at hr; simp [hr]) (by norm_num)
  obtain ⟨h5, h6⟩ := h4 (by intro r hr; simpa using hr)
  exact ⟨h1, h3 (by simp), h5, h6 (1 / 2) (1 / 3) 7 (by norm_num)⟩

/-! ## Claim C3 -/

/-- Claim C3, counterexample.  The claim describes destination selection as
a cumulative-distribution search over the normalized `effective_rate_row`
("first index whose cumulative value exceeds `v`"), with zero-rate entries
never selected.  Both parts fail on the code: (1) on the rate row `[1, 2]`
with `Δt = 1` and `v = 2/5`, the code (which accumulates the per-entry
probabilities `1 - exp(-r·Δt)`, normalized, with a non-strict comparison)
selects index 0, while the claimed rate-row rule selects index 1; (2) on
the rate row `[0, 1]` with the draw `v = 0`, the code selects index 0,
whose rate entry is exactly zero. -/
theorem C3_counterexample :
    selectDest [(1 : ℝ), 2] 1 (2 / 5) = 0 ∧
    selectDest_spec [(1 : ℝ), 2] (2 / 5) = 1 ∧
    (selectDest [(0 : ℝ), 1] 1 0 = 0 ∧ List.getD [(0 : ℝ), 1] 0 0 = 0) := by
  have hx1 : Real.exp (-1) < 1 := Real.exp_lt_one_iff.mpr (by norm_num)
  have hx0 : 0 < Real.exp (-1) := Real.exp_pos _
  have hxh := exp_neg_one_lt_half
  have hps : psum [(1 : ℝ), 2] 1 =
      2 - Real.exp (-1) - Real.exp (-1) * Real.exp (-1) := by
    simp only [psum, probRow, List.map_cons, List.map_nil, List.sum_cons,
      List.sum_nil, neg_mul, one_mul, mul_one]
    rw [exp_neg_two_eq]
    ring
  have hpspos : 0 < psum [(1 : ℝ), 2] 1 := by
    rw [hps]; nlinarith
  refine ⟨?_, ?_, ?_, by rfl⟩
  · simp only [selectDest, probRow, List.map_cons, List.map_nil, cumsum,
      cumsumFrom]
    apply searchsorted_cons_le
    rw [zero_add, show ((-1 : ℝ) * 1) = -1 by norm_num, le_div_iff₀ hpspos, hps]
    nlinarith [mul_nonneg
      (by linarith : (0 : ℝ) ≤ 1 - 2 * Real.exp (-1))
      (by linarith : (0 : ℝ) ≤ 1 - Real.exp (-1))]
  · norm_num [selectDest_spec, cumsum, cumsumFrom, searchsortedStrict]
  · have h0 : (1 - Real.exp (-0 * 1)) / psum [(0 : ℝ), 1] 1 = 0 := by
      norm_num [Real.exp_zero]
    simp only [selectDest, probRow, List.map_cons, List.map_nil, cumsum,
      cumsumFrom]
    apply searchsorted_cons_le
    rw [h0, add_zero]

/-- Claim C3 (amended): the destination is the first index whose cumulative
normalized per-entry probability (`p_j = 1 - exp(-r_j·Δt)`, each divided by
`psum`) is `≥ v` (numpy `searchsorted`, side `left`) — the weights are the
per-entry probabilities, not the raw rate row; for every draw `v` with
`0 < v ≤ 1` (given non-negative rates, `Δt > 0` and `psum > 0`) the
selected index is in range and its rate entry is nonzero.  (At `v = 0` a
zero-rate leading compartment can be selected, as the counterexample
shows.) -/
theorem C3_amended (row : List ℝ) (dt v : ℝ)
    (hrow : ∀ r ∈ row, 0 ≤ r) (hdt : 0 < dt) (hv0 : 0 < v) (hv1 : v ≤ 1)
    (hps : 0 < psum row dt) :
    selectDest row dt v < row.length ∧
    row.getD (selectDest row dt v) 0 ≠ 0 := by
  set q : List ℝ := (probRow row dt).map (fun p => p / psum row dt) with hq
  have hlen : q.length = row.length := by rw [hq, probRow]; simp
  have hsd : selectDest row dt v = searchsorted (cumsum q) v := by
    rw [selectDest, hq]
  have hqsum : q.sum = 1 := by
    rw [hq, list_map_div_sum, ← psum]
    exact div_self hps.ne'
  have hne : row ≠ [] := by
    rintro rfl
    simp [psum, probRow] at hps
  have hqne : q ≠ [] := by
    intro h0
    rw [h0] at hlen
    exact hne (List.length_eq_zero.mp hlen.symm)
  have hq0 : ∀ a ∈ q, 0 ≤ a := by
    intro a ha
    rw [hq, probRow] at ha
    simp only [List.mem_map] at ha
    obtain ⟨p, hp, rfl⟩ := ha
    obtain ⟨r, hr, rfl⟩ := hp
    apply div_nonneg _ hps.le
    have h1 : -r * dt ≤ 0 := by nlinarith [mul_nonneg (hrow r hr) hdt.le]
    have := Real.exp_le_one_iff.mpr h1
    linarith
  have h1 : searchsorted (cumsum q) v < q.length :=
    searchsorted_lt_length q 0 v hqne (by rw [hqsum]; linarith)
  have h2 : q.getD (searchsorted (cumsum q) v) 0 ≠ 0 :=
    searchsorted_sel_nonzero q 0 v hq0 hv0 h1
  refine ⟨by rw [hsd, ← hlen]; exact h1, ?_⟩
  rw [hsd]
  have hjrow : searchsorted (cumsum q) v < row.length := by
    rw [← hlen]; exact h1
  have hjq : searchsorted (cumsum q) v < (probRow row dt).length := by
    rw [probRow]; simpa using hjrow
  have e1 : q.getD (searchsorted (cumsum q) v) 0 =
      (probRow row dt).getD (searchsorted (cumsum q) v) 0 / psum row dt := by
    rw [hq]; exact getD_map_of_lt _ _ _ hjq
  have e2 : (probRow row dt).getD (searchsorted (cumsum q) v) 0 =
      1 - Real.exp (-(row.getD (searchsorted (cumsum q) v) 0) * dt) := by
    rw [probRow]; exact getD_map_of_lt _ _ _ hjrow
  intro hr0
  apply h2
  rw [e1, e2, hr0]
  simp

/-- Witness for C3 at the rate row `[0, 1]`, `Δt = 1`, `v = 1/2`: the
selected destination is in range and has a nonzero rate. -/
theorem C3_witness :
    selectDest [(0 : ℝ), 1] 1 (1 / 2) < [(0 : ℝ), 1].length ∧
    List.getD [(0 : ℝ), 1] (selectDest [(0 : ℝ), 1] 1 (1 / 2)) 0 ≠ 0 := by
  apply C3_amended
  · intro r hr
    simp at hr
    rcases hr with rfl | rfl <;> norm_num
  · norm_num
  · norm_num
  · norm_num
  · have hx1 : Real.exp (-1) < 1 := Real.exp_lt_one_iff.mpr (by norm_num)
    simp only [psum, probRow, List.map_cons, List.map_nil, List.sum_cons,
      List.sum_nil, neg_mul, one_mul]
    norm_num [Real.exp_zero]

/-! ## Claim C4 -/

theorem except_bind_eq_ok {ε α β : Type} (x : Except ε α) (f : α → Except ε β)
    (b : β) : x.bind f = Except.ok b ↔ ∃ a, x = Except.ok a ∧ f a = Except.ok b := by
  cases x <;> simp [Except.bind]

/-- Claim C4, counterexample.  The claim states that an unknown preset
identifier makes the matrix builder fail with an `UnknownTransferSetup`
error.  No such exception exists in the code: the `else` branch of
line 303 executes `logging.ERROR('No transfer setup available')`, and
since `logging.ERROR` is the integer constant 40 this call raises
`TypeError: 'int' object is not callable`.  For the unrecognized
identifier `"Bokna_90Sr"` the builder therefore aborts with that
`TypeError` (and in particular produces no matrix). -/
theorem C4_counterexample :
    init_transfer_rates cfgUnknown = Except.error PyError.typeError ∧
    (init_transfer_rates cfgUnknown).isOk = false := by
  constructor <;> rfl

/-- Claim C4 (amended): passing an unknown preset identifier (neither
`"Bokna_137Cs"` nor `"dummy"`) to the transfer-rate-matrix builder fails
at matrix-build time with a `TypeError` — raised by the erroneous
error-logging call `logging.ERROR(...)`, `logging.ERROR` being an integer
constant, not by any `UnknownTransferSetup` error (which does not exist in
the code) — propagated to the caller; the build aborts before the
diagonal fill, so no rate matrix is produced, and the failure is not
silently swallowed. -/
theorem C4_amended (c : RadConfig)
    (h1 : c.transfer_setup ≠ "Bokna_137Cs") (h2 : c.transfer_setup ≠ "dummy") :
    init_transfer_rates c = Except.error PyError.typeError := by
  simp only [init_transfer_rates]
  rw [if_neg h1, if_neg h2]

/-- Witness for C4 at the unrecognized identifier `"foo"`. -/
theorem C4_witness :
    init_transfer_rates cfgUnknown2 = Except.error PyError.typeError :=
  C4_amended cfgUnknown2 (by decide) (by decide)

/-! ## Claim C5 -/

theorem upd_nonneg {M : ℕ → ℕ → ℝ} {a b : ℕ} {v : ℝ}
    (hM : ∀ i j, 0 ≤ M i j) (hv : 0 ≤ v) : ∀ i j, 0 ≤ upd M a b v i j := by
  intro i j
  unfold upd
  split_ifs with h
  · exact hv
  · exact hM i j

theorem fillDiag_nonneg {M : ℕ → ℕ → ℝ} (hM : ∀ i j, 0 ≤ M i j) :
    ∀ i j, 0 ≤ fillDiag M i j := by
  intro i j
  unfold fillDiag
  split_ifs with h
  · exact le_refl 0
  · exact hM i j

theorem fillDiag_diag (M : ℕ → ℕ → ℝ) : ∀ i, fillDiag M i i = 0 := by
  intro i
  unfold fillDiag
  rw [if_pos rfl]

/-- Claim C5: for every recognized preset (`"Bokna_137Cs"` or `"dummy"`)
and every configuration whose numeric parameters lie in their configured
valid ranges (all non-negative, porosity at most 1), a successfully built
transfer-rate matrix has every diagonal entry exactly zero and every entry
non-negative. -/
theorem C5_matrix_invariants (c : RadConfig) (M : ℕ → ℕ → ℝ)
    (hKd : 0 ≤ c.Kd) (hDc : 0 ≤ c.Dc) (hsc : 0 ≤ c.slow_coeff)
    (hsmd : 0 ≤ c.sedmixdepth) (hdens : 0 ≤ c.sediment_density)
    (hf : 0 ≤ c.effective_fraction) (hphi : 0 ≤ c.corr_factor)
    (_hporo0 : 0 ≤ c.porosity) (hporo1 : c.porosity ≤ 1)
    (hlt : 0 ≤ c.layer_thick)
    (hset : c.transfer_setup = "Bokna_137Cs" ∨ c.transfer_setup = "dummy")
    (hM : init_transfer_rates c = Except.ok M) :
    (∀ i j, 0 ≤ M i j) ∧ (∀ i, M i i = 0) := by
  have h0 : ∀ i j : ℕ, (0 : ℝ) ≤ (fun (_ _ : ℕ) => (0 : ℝ)) i j :=
    fun _ _ => le_refl 0
  rcases hset with hs | hs
  · simp only [init_transfer_rates] at hM
    rw [if_pos hs] at hM
    simp only [except_bind_eq_ok] at hM
    obtain ⟨lmm, hlmm, prev, hprev, srev, hsrev, psrev, hpsrev, ssrev, hssrev, hM⟩ := hM
    obtain rfl : _ = M := Except.ok.injEq _ _ ▸ hM
    refine ⟨fillDiag_nonneg ?_, fillDiag_diag _⟩
    apply upd_nonneg
    apply upd_nonneg
    apply upd_nonneg
    apply upd_nonneg
    apply upd_nonneg
    apply upd_nonneg
    apply upd_nonneg
    apply upd_nonneg h0
    · exact mul_nonneg (mul_nonneg hDc hKd) (by norm_num)
    · exact hDc
    · apply div_nonneg _ hlt
      have hp : (0 : ℝ) ≤ 1 - c.porosity := by linarith
      exact mul_nonneg (mul_nonneg (mul_nonneg (mul_nonneg (mul_nonneg
        (mul_nonneg hDc hKd) hsmd) hdens) hp) hf) hphi
    · exact mul_nonneg hDc hphi
    · exact hsc
    · exact hsc
    · exact mul_nonneg hsc (by norm_num)
    · exact mul_nonneg hsc (by norm_num)
  · simp only [init_transfer_rates] at hM
    rw [if_neg (by rw [hs]; decide), if_pos hs] at hM
    simp only [except_bind_eq_ok] at hM
    obtain ⟨lmm, hlmm, col, hcol, prev, hprev, srev, hsrev, hM⟩ := hM
    by_cases hsf : c.slowly_fraction = true
    · rw [if_pos hsf] at hM
      simp only [except_bind_eq_ok] at hM
      obtain ⟨psrev, hpsrev, ssrev, hssrev, hM⟩ := hM
      obtain rfl : _ = M := Except.ok.injEq _ _ ▸ hM
      refine ⟨fillDiag_nonneg ?_, fillDiag_diag _⟩
      apply upd_nonneg
      apply upd_nonneg
      apply upd_nonneg
      apply upd_nonneg
      apply upd_nonneg
      apply upd_nonneg h0
      all_goals norm_num
    · rw [if_neg hsf] at hM
      obtain rfl : _ = M := Except.ok.injEq _ _ ▸ hM
      refine ⟨fillDiag_nonneg ?_, fillDiag_diag _⟩
      apply upd_nonneg
      apply upd_nonneg h0
      all_goals norm_num

/-- Witness for C5 at `cfgDummy`: the built matrix `Mdummy` has
non-negative entries and zero diagonal. -/
theorem C5_witness : (0 : ℝ) ≤ Mdummy 0 1 ∧ Mdummy 1 1 = 0 := by
  obtain ⟨h1, h2⟩ := C5_matrix_invariants cfgDummy Mdummy
    le_rfl le_rfl le_rfl le_rfl le_rfl le_rfl le_rfl le_rfl
    (by norm_num [cfgDummy]) le_rfl (Or.inr rfl) rfl
  exact ⟨h1 0 1, h2 1⟩

/-! ## Claim C6 -/

/-- Claim C6: the rate projector gives every particle the matrix row of its
current specie, except that (1) for an LMM particle farther above the
seafloor than the interaction-layer thickness the entry toward
sediment-reversible is zeroed, and (2) for every LMM particle the entry
toward particle-reversible is scaled by `conc3 / 1e-3`.  Every other entry
equals the matrix entry, and rows of non-LMM particles are exact copies of
their matrix row. -/
theorem C6_rate_projection (R : ℕ → ℕ → ℝ) (P : Params) (env : Env)
    (el : Elements) (hne : P.num_srev ≠ P.num_prev) :
    (∀ k, el.specie k = P.num_lmm →
      el.z k - -env.sea_floor_depth_below_sea_level k > P.layer_thick →
      (update_transfer_rates R P env el).transfer_rates1D k P.num_srev = 0) ∧
    (∀ k, el.specie k = P.num_lmm →
      (update_transfer_rates R P env el).transfer_rates1D k P.num_prev =
        R P.num_lmm P.num_prev * env.conc3 k / 1e-3) ∧
    (∀ k, el.specie k = P.num_lmm →
      ¬ (el.z k - -env.sea_floor_depth_below_sea_level k > P.layer_thick) →
      (update_transfer_rates R P env el).transfer_rates1D k P.num_srev =
        R P.num_lmm P.num_srev) ∧
    (∀ k j, el.specie k = P.num_lmm → j ≠ P.num_srev → j ≠ P.num_prev →
      (update_transfer_rates R P env el).transfer_rates1D k j =
        R P.num_lmm j) ∧
    (∀ k j, el.specie k ≠ P.num_lmm →
      (update_transfer_rates R P env el).transfer_rates1D k j =
        R (el.specie k) j) := by
  refine ⟨?_, ?_, ?_, ?_, ?_⟩
  · intro k hk hdist
    simp only [update_transfer_rates]
    rw [if_neg (by rintro ⟨-, habs⟩; exact hne habs)]
    rw [if_pos ⟨hk, hdist, trivial⟩]
  · intro k hk
    simp only [update_transfer_rates]
    rw [if_pos ⟨hk, trivial⟩]
    rw [if_neg (by rintro ⟨-, -, habs⟩; exact hne habs.symm)]
    rw [hk]
  · intro k hk hdist
    simp only [update_transfer_rates]
    rw [if_neg (by rintro ⟨-, habs⟩; exact hne habs)]
    rw [if_neg (by rintro ⟨-, habs, -⟩; exact hdist habs)]
    rw [hk]
  · intro k j hk hj1 hj2
    simp only [update_transfer_rates]
    rw [if_neg (by rintro ⟨-, habs⟩; exact hj2 habs)]
    rw [if_neg (by rintro ⟨-, -, habs⟩; exact hj1 habs)]
    rw [hk]
  · intro k j hk
    simp only [update_transfer_rates]
    rw [if_neg (by rintro ⟨habs, -⟩; exact hk habs)]
    rw [if_neg (by rintro ⟨habs, -⟩; exact hk habs)]

/-- Witness for C6: with matrix `R6`, parameters `P6`, environment `env6`
and ensemble `el6` (particle 0 dissolved far above the seabed, particle 1
sediment-reversible), the projected rows have the gated, scaled and copied
entries the theorem states. -/
theorem C6_witness :
    (update_transfer_rates R6 P6 env6 el6).transfer_rates1D 0 P6.num_srev = 0 ∧
    (update_transfer_rates R6 P6 env6 el6).transfer_rates1D 0 P6.num_prev =
      R6 P6.num_lmm P6.num_prev * env6.conc3 0 / 1e-3 ∧
    (update_transfer_rates R6 P6 env6 el6).transfer_rates1D 0 0 = R6 P6.num_lmm 0 ∧
    (update_transfer_rates R6 P6 env6 el6).transfer_rates1D 1 1 =
      R6 (el6.specie 1) 1 := by
  obtain ⟨h1, h2, h3, h4, h5⟩ := C6_rate_projection R6 P6 env6 el6 (by decide)
  refine ⟨h1 0 rfl ?_, h2 0 rfl, h4 0 0 rfl (by decide) (by decide), h5 1 1 (by decide)⟩
  show (-3 : ℝ) - -(10 : ℝ) > 1
  norm_num

/-! ## Claim C7 -/

/-- Claim C7 (code evaluation at the failing input): a particle
transitioning from sediment-reversible (specie 2) to LMM (specie 0) over a
100 m deep seafloor with desorption depth 10 and zero uncertainty is
placed by `desorption_from_sediments` at `z = +110` — above the sea
surface, breaking the `z ≤ 0` negative-down convention — instead of the
claimed seafloor-relative position `-100 + 10 = -90`. -/
theorem C7_code_eval :
    (desorption_from_sediments P6 env7 (fun _ => 0) (fun _ => 2) (fun _ => 0)
      el7).z 0 = 110 ∧
    ¬ ((desorption_from_sediments P6 env7 (fun _ => 0) (fun _ => 2) (fun _ => 0)
      el7).z 0 ≤ 0) ∧
    (desorption_from_sediments P6 env7 (fun _ => 0) (fun _ => 2) (fun _ => 0)
      el7).z 0 ≠ -100 + 10 := by
  have h : (desorption_from_sediments P6 env7 (fun _ => 0) (fun _ => 2)
      (fun _ => 0) el7).z 0 = 110 := by
    simp only [desorption_from_sediments, P6, env7]
    norm_num
  refine ⟨h, by rw [h]; norm_num, by rw [h]; norm_num⟩

/-! ## Claim C8 -/

/-- Claim C8: `bottom_interaction` moves every particle-reversible particle
with `z ≤ Zmin` to sediment-reversible; every particle above `Zmin`, and
every particle at or below `Zmin` whose specie is not particulate, keeps
its specie; and no particle's `z` or `diameter` changes. -/
theorem C8_bottom_interaction (P : Params) (Zmin : ℝ) (el : Elements)
    (h1 : P.num_srev ≠ P.num_psrev) (h2 : P.num_srev ≠ P.num_pirrev) :
    (∀ k, el.z k ≤ Zmin → el.specie k = P.num_prev →
      (bottom_interaction P Zmin el).specie k = P.num_srev) ∧
    (∀ k, ¬ (el.z k ≤ Zmin) →
      (bottom_interaction P Zmin el).specie k = el.specie k) ∧
    (∀ k, el.specie k ≠ P.num_prev → el.specie k ≠ P.num_psrev →
      el.specie k ≠ P.num_pirrev →
      (bottom_interaction P Zmin el).specie k = el.specie k) ∧
    (∀ k, (bottom_interaction P Zmin el).z k = el.z k ∧
      (bottom_interaction P Zmin el).diameter k = el.diameter k) := by
  refine ⟨?_, ?_, ?_, fun k => ⟨rfl, rfl⟩⟩
  · intro k hz hsp
    simp only [bottom_interaction]
    by_cases hsf : P.slowly_fraction = true <;>
      by_cases hif : P.irreversible_fraction = true <;>
        simp [hsf, hif, hz, hsp, h1, h2]
  · intro k hz
    simp only [bottom_interaction]
    by_cases hsf : P.slowly_fraction = true <;>
      by_cases hif : P.irreversible_fraction = true <;>
        simp [hsf, hif, hz]
  · intro k hp hps hpi
    simp only [bottom_interaction]
    by_cases hsf : P.slowly_fraction = true <;>
      by_cases hif : P.irreversible_fraction = true <;>
        simp [hsf, hif, hp, hps, hpi]

/-- Witness for C8 with `Zmin = -5` on `el8`: the bottom particle in
particle-reversible becomes sediment-reversible, the shallow particle and
all `z`/`diameter` values are untouched. -/
theorem C8_witness :
    (bottom_interaction P6 (-5) el8).specie 0 = P6.num_srev ∧
    (bottom_interaction P6 (-5) el8).specie 1 = el8.specie 1 ∧
    (bottom_interaction P6 (-5) el8).z 0 = el8.z 0 := by
  obtain ⟨h1, h2, h3, h4⟩ := C8_bottom_interaction P6 (-5) el8 (by decide) (by decide)
  refine ⟨h1 0 ?_ rfl, h2 1 ?_, (h4 0).1⟩
  · show (if (0 : ℕ) = 0 then (-10 : ℝ) else -1) ≤ -5
    norm_num
  · show ¬ ((if (1 : ℕ) = 0 then (-10 : ℝ) else -1) ≤ -5)
    norm_num

/-! ## Claim C9 -/

/-- Claim C9: the shared transfer-rate matrix is immutable after
initialization — a full step (rate projection, speciation, transition
handlers, external transport with resets) leaves every entry of
`transfer_rates` unchanged, for every ensemble state, environment snapshot,
draw sequence and transport behaviour.  (In the source the row extraction
`self.transfer_rates[self.elements.specie, :]` uses numpy advanced
indexing, which copies, and every subsequent write targets the
per-particle `elements` arrays only.) -/
theorem C9_matrix_immutable (P : Params) (env : Env) (r : Draws)
    (mixZ : Elements → ℕ → ℝ) (mixSp : Elements → ℕ → ℕ)
    (advLon advLat vadvZ : Elements → ℕ → ℝ) (s : ModelState) :
    ∀ i j, (stepState P env r mixZ mixSp advLon advLat vadvZ s).transfer_rates i j =
      s.transfer_rates i j :=
  fun _ _ => rfl

/-! ## Claim C10 -/

/-- Core of claim C10, on the transport-and-reset phase: provided vertical
mixing never changes the specie of an already-sedimented particle (it can
only sediment more particles via `bottom_interaction`), every particle
that is in a sediment specie at the end of the speciation phase gets its
`lon`, `lat` and `z` restored to their post-speciation, pre-transport
values. -/
theorem updateFrom_sediment_frozen (P : Params)
    (mixZ : Elements → ℕ → ℝ) (mixSp : Elements → ℕ → ℕ)
    (advLon advLat vadvZ : Elements → ℕ → ℝ) (el2 : Elements)
    (Hmix : ∀ k, sedimentB P (el2.specie k) = true → mixSp el2 k = el2.specie k) :
    ∀ k, sedimentB P (el2.specie k) = true →
      (updateFrom P mixZ mixSp advLon advLat vadvZ el2).lon k = el2.lon k ∧
      (updateFrom P mixZ mixSp advLon advLat vadvZ el2).lat k = el2.lat k ∧
      (updateFrom P mixZ mixSp advLon advLat vadvZ el2).z k = el2.z k := by
  intro k hk
  have hmix : mixSp el2 k = el2.specie k := Hmix k hk
  simp only [updateFrom]
  by_cases hva : P.verticaladvection = true <;>
    simp [hva, hmix, hk]

/-- Claim C10: within a step, every particle whose specie is a sediment
specie (`num_srev`, plus `num_ssrev`/`num_sirrev` under their flags) at
the end of the speciation phase has its `lon`, `lat` and `z` restored to
their pre-transport values after horizontal advection, vertical advection
and mixing, so sedimented particles do not move during the step.  The
hypothesis states that vertical mixing (the only transport collaborator
that can touch species, through `bottom_interaction`) never changes the
specie of an already-sedimented particle. -/
theorem C10_sediment_frozen (R : ℕ → ℕ → ℝ) (P : Params) (env : Env)
    (r : Draws) (mixZ : Elements → ℕ → ℝ) (mixSp : Elements → ℕ → ℕ)
    (advLon advLat vadvZ : Elements → ℕ → ℝ) (el : Elements)
    (Hmix : ∀ e k, sedimentB P (e.specie k) = true → mixSp e k = e.specie k) :
    ∀ k, sedimentB P ((afterSpeciation R P env r el).specie k) = true →
      (update R P env r mixZ mixSp advLon advLat vadvZ el).lon k =
        (afterSpeciation R P env r el).lon k ∧
      (update R P env r mixZ mixSp advLon advLat vadvZ el).lat k =
        (afterSpeciation R P env r el).lat k ∧
      (update R P env r mixZ mixSp advLon advLat vadvZ el).z k =
        (afterSpeciation R P env r el).z k := by
  intro k hk
  exact updateFrom_sediment_frozen P mixZ mixSp advLon advLat vadvZ
    (afterSpeciation R P env r el) (fun k' => Hmix _ k') k hk

/-- Witness for C10: a sediment-reversible particle over an all-zero rate
matrix stays sediment-reversible through speciation, and the step restores
its position against mixing to `z = -999`, advection to `(77, 88)` and
vertical advection to `z = -111`. -/
theorem C10_witness :
    sedimentB P6 ((afterSpeciation Rw P6 env7 drawsW elw).specie 0) = true ∧
    (update Rw P6 env7 drawsW mixZw mixSpw advLonw advLatw vadvZw elw).lon 0 =
      (afterSpeciation Rw P6 env7 drawsW elw).lon 0 ∧
    (update Rw P6 env7 drawsW mixZw mixSpw advLonw advLatw vadvZw elw).lat 0 =
      (afterSpeciation Rw P6 env7 drawsW elw).lat 0 ∧
    (update Rw P6 env7 drawsW mixZw mixSpw advLonw advLatw vadvZw elw).z 0 =
      (afterSpeciation Rw P6 env7 drawsW elw).z 0 := by
  have hrow : ∀ k j, (update_transfer_rates Rw P6 env7 elw).transfer_rates1D k j
      = 0 := by
    intro k j
    simp [update_transfer_rates, elw, P6, Rw]
  have hz : ∀ x ∈ rowList (update_transfer_rates Rw P6 env7 elw) P6.nspecies 0,
      x = 0 := by
    intro x hx
    simp only [rowList, List.mem_map, List.mem_range] at hx
    obtain ⟨j, -, rfl⟩ := hx
    exact hrow 0 j
  have hps := psum_zero _ P6.dt hz
  have hspec : (afterSpeciation Rw P6 env7 drawsW elw).specie 0 = 2 := by
    simp only [afterSpeciation, update_speciation, desorption_from_sediments,
      sorption_to_sediments, update_radionuclide_diameter]
    rw [newSpecie, if_neg (by rw [hps]; norm_num [drawsW])]
    simp [update_transfer_rates, elw]
  have hsed : sedimentB P6 ((afterSpeciation Rw P6 env7 drawsW elw).specie 0)
      = true := by
    rw [hspec]
    decide
  obtain ⟨h1, h2, h3⟩ := C10_sediment_frozen Rw P6 env7 drawsW mixZw mixSpw
    advLonw advLatw vadvZw elw (fun e k _ => rfl) 0 hsed
  exact ⟨hsed, h1, h2, h3⟩

end
